import Mathlib

/-!
# Verification of the BitTorrent client command dispatch (`src/src/main.rs`)

This file gives a shallow embedding of the command branches of `main.rs`.
The binary's library crate (`bittorrent_starter_rust`) is not part of the
sources; every call into it (`Torrent::get_available_peers`,
`Peer::download_piece`, `Peer::new`, `Peer::get_pieces`,
`Peer::send_ext_handshake`, `Peer::get_extension_info`,
`Torrent::download_torrent`, `PeerList::get_peers_from`) is therefore a
parameter of the embedded command: the command is a function of the
environment's responses, and the control flow of `main.rs` — the `?`
propagations, the `if` guards, the slice indexing, the buffer copy, the
`write_file` call — is translated faithfully.

Observable effects of a command run are collected in `CmdEffects`:
the process exit status (exit code of `main`, or a runtime panic), the
bytes written to the output file (if any), whether an error was printed
to stderr, how many peer handshakes were attempted, and which peer's
`download_piece` was invoked.
-/

namespace BitTorrent

/-- A byte, as a natural number (values < 256 in intent). -/
abbrev Byte := Nat

/-- A peer address as delivered by the tracker (opaque here). -/
abbrev PeerAddr := Nat

/-- The `info` dictionary of a torrent, with the fields `main.rs` uses:
`torrent.info.length`, `torrent.info.piece_length`, `torrent.info.pieces`
(concatenated 20-byte SHA-1 digests), `name`. -/
structure Info where
  name : String := ""
  piece_length : Nat
  pieces : List Byte
  length : Nat
deriving Repr, DecidableEq

/-- A torrent: announce URL plus the info dictionary, as constructed in
`main.rs` (`Torrent { announce, info }`). -/
structure Torrent where
  announce : String
  info : Info
deriving Repr, DecidableEq

/-- Modelled from the spec: the `Peer` data model (§3) of the library crate,
which is not under `src/`. Only the fields the claims mention are kept:
the address, the peer id received in the handshake, and the bitfield over
piece indices. -/
structure Peer where
  address : Nat
  peerId : Nat
  bitfield : List Bool
deriving Repr, DecidableEq, Inhabited

/-- Modelled from the spec: the extension-handshake result (`ut_metadata`
id recorded from the peer's `m` dictionary, §4.4); the library's
`Extension` type is not under `src/`. -/
structure Extension where
  utMetadata : Nat
deriving Repr, DecidableEq

/-- How the process terminated: a normal exit with a code, or a panic
(e.g. an out-of-bounds slice index or `Option::unwrap` on `None`). -/
inductive ExitStatus where
  | code : Nat → ExitStatus
  | panicked : ExitStatus
deriving Repr, DecidableEq

/-- Observable effects of one command run. -/
structure CmdEffects where
  exit : ExitStatus
  written : Option (List Byte) := none
  errPrinted : Bool := false
  handshakes : Nat := 0
  usedPeer : Option Peer := none
deriving Repr, DecidableEq

/-- Modelled from the spec: the piece count of a torrent, `pieces.len() / 20`
(§3: `pieces` is the concatenation of the 20-byte per-piece digests,
`length = 20·piece_count`). -/
def Torrent.pieceCount (t : Torrent) : Nat :=
  t.info.pieces.length / 20

/-- Modelled from the spec: `Torrent::get_piece_len` is not under `src/`.
§4.5/§8: every piece but the last has length `piece_length`; the final
piece has length `total_length - (piece_count-1)·piece_length`. -/
def Torrent.get_piece_len (t : Torrent) (p : Nat) : Nat :=
  if p + 1 < t.pieceCount then t.info.piece_length
  else t.info.length - (t.pieceCount - 1) * t.info.piece_length

/-- Embeds `Commands::DownloadPiece` (`src/src/main.rs` lines 49–71).
`peersResult` is the outcome of `torrent.get_available_peers()`,
`download` the behaviour of `Peer::download_piece`.  The source indexes
`available_peers[1]` (a slice index, which panics when out of bounds),
downloads the piece from that peer, rejects data of the wrong length by
printing to stderr and returning `Ok(())`, and otherwise copies the data
into a zeroed buffer of size `piece_len` and writes it.  Because the copy
is guarded by `data.len() == piece_len`, the buffer written equals `data`. -/
def downloadPieceCmd (torrent : Torrent) (piece_index : Nat)
    (peersResult : Except Unit (List Peer))
    (download : Peer → Nat → Nat → Except Unit (List Byte)) : CmdEffects :=
  match peersResult with
  | Except.error _ => { exit := ExitStatus.code 1, errPrinted := true }
  | Except.ok available_peers =>
    let piece_len := torrent.get_piece_len piece_index
    match available_peers[1]? with
    | none => { exit := ExitStatus.panicked }
    | some peer =>
      match download peer piece_index piece_len with
      | Except.error _ =>
          { exit := ExitStatus.code 1, errPrinted := true, usedPeer := some peer }
      | Except.ok data =>
        if data.length ≠ piece_len then
          { exit := ExitStatus.code 0, errPrinted := true, usedPeer := some peer }
        else
          { exit := ExitStatus.code 0, written := some data, usedPeer := some peer }

/-- Embeds `Commands::Download` (`src/src/main.rs` lines 72–90).
`peersResult` is the outcome of `get_available_peers`, `download_torrent`
the behaviour of `Torrent::download_torrent`.  On `Ok(pieces)` the source
flattens the piece buffers, rejects a wrong total length (stderr +
`Ok(())`), otherwise writes the flattened bytes.  On `Err` it prints to
stderr and still falls through to `Ok(())`. -/
def downloadCmd (torrent : Torrent)
    (peersResult : Except Unit (List Peer))
    (download_torrent : List Peer → Except Unit (List (List Byte))) : CmdEffects :=
  match peersResult with
  | Except.error _ => { exit := ExitStatus.code 1, errPrinted := true }
  | Except.ok peers =>
    match download_torrent peers with
    | Except.error _ => { exit := ExitStatus.code 0, errPrinted := true }
    | Except.ok pieces =>
      let data := pieces.flatten
      if data.length ≠ torrent.info.length then
        { exit := ExitStatus.code 0, errPrinted := true }
      else
        { exit := ExitStatus.code 0, written := some data }

/-- The result of one magnet peer session prologue in the `MagnetDownload`
loop: the connected `Peer` (from `Peer::new`), the pieces the peer reports
(from `get_pieces`), and the extension-handshake result
(from `send_ext_handshake`).  Any of the three failing is one `Err`. -/
structure SessionResult where
  peer : Peer
  pieces : List Nat
  ext : Extension
deriving Repr, DecidableEq

/-- Embeds the peer loop of `Commands::MagnetDownload`
(`src/src/main.rs` lines 163–176).  For each address: connect (any error
propagates via `?`); if `extension` is still `None`, set it to the
received extension; if the peer reported pieces, push it onto
`available_peers`.  The first component counts the `Peer::new`
(handshake) attempts made. -/
def magnetPeerLoop (connect : PeerAddr → Except Unit SessionResult) :
    List PeerAddr → List Peer → Option Extension → Nat →
    Nat × Except Unit (List Peer × Option Extension)
  | [], avail, ext, n => (n, Except.ok (avail, ext))
  | a :: rest, avail, ext, n =>
    match connect a with
    | Except.error e => (n + 1, Except.error e)
    | Except.ok s =>
      magnetPeerLoop connect rest
        (if s.pieces.length > 0 then avail ++ [s.peer] else avail)
        (if ext.isNone then some s.ext else ext)
        (n + 1)

/-- Embeds `Commands::MagnetDownload` (`src/src/main.rs` lines 156–202).
After the peer loop: if `available_peers` is non-empty, call
`get_extension_info` on `available_peers[0]` with `extension.unwrap()`
(a panic if the option is `None`), build the torrent from the tracker URL
and the fetched info, run `download_torrent` over the available peers, and
finish exactly as `Commands::Download` does.  An empty `available_peers`
list falls through to `Ok(())`. -/
def magnetDownloadCmd (magnet_tracker : String)
    (peersResult : Except Unit (List PeerAddr))
    (connect : PeerAddr → Except Unit SessionResult)
    (getInfo : Peer → Extension → Except Unit Info)
    (download_torrent : Torrent → List Peer → Except Unit (List (List Byte))) :
    CmdEffects :=
  match peersResult with
  | Except.error _ => { exit := ExitStatus.code 1, errPrinted := true }
  | Except.ok peers =>
    match magnetPeerLoop connect peers [] none 0 with
    | (n, Except.error _) =>
        { exit := ExitStatus.code 1, errPrinted := true, handshakes := n }
    | (n, Except.ok (available_peers, extOpt)) =>
      if available_peers.length > 0 then
        match extOpt with
        | none => { exit := ExitStatus.panicked, handshakes := n }
        | some ext =>
          match getInfo available_peers.headI ext with
          | Except.error _ =>
              { exit := ExitStatus.code 1, errPrinted := true, handshakes := n }
          | Except.ok info =>
            let torrent : Torrent := { announce := magnet_tracker, info := info }
            match download_torrent torrent available_peers with
            | Except.error _ =>
                { exit := ExitStatus.code 0, errPrinted := true, handshakes := n }
            | Except.ok pieces =>
              let data := pieces.flatten
              if data.length ≠ torrent.info.length then
                { exit := ExitStatus.code 0, errPrinted := true, handshakes := n }
              else
                { exit := ExitStatus.code 0, written := some data, handshakes := n }
      else
        { exit := ExitStatus.code 0, handshakes := n }

/-- Embeds `Commands::MagnetHandshake` (`src/src/main.rs` lines 95–106).
With a non-empty peer list: `Peer::new` on `peers[0]`, then `get_pieces`,
then `send_ext_handshake`, each error propagating via `?`.  An empty peer
list skips everything and returns `Ok(())`. -/
def magnetHandshakeCmd (peersResult : Except Unit (List PeerAddr))
    (connect : PeerAddr → Except Unit Peer)
    (getPieces : Peer → Except Unit (List Nat))
    (extHandshake : Peer → Except Unit Extension) : CmdEffects :=
  match peersResult with
  | Except.error _ => { exit := ExitStatus.code 1, errPrinted := true }
  | Except.ok [] => { exit := ExitStatus.code 0 }
  | Except.ok (a :: _) =>
    match connect a with
    | Except.error _ =>
        { exit := ExitStatus.code 1, errPrinted := true, handshakes := 1 }
    | Except.ok peer =>
      match getPieces peer with
      | Except.error _ =>
          { exit := ExitStatus.code 1, errPrinted := true, handshakes := 1 }
      | Except.ok _ =>
        match extHandshake peer with
        | Except.error _ =>
            { exit := ExitStatus.code 1, errPrinted := true, handshakes := 1 }
        | Except.ok _ => { exit := ExitStatus.code 0, handshakes := 1 }

/-- Embeds `Commands::MagnetInfo` (`src/src/main.rs` lines 107–118).
Like `magnet_handshake`, then additionally `get_extension_info`. -/
def magnetInfoCmd (peersResult : Except Unit (List PeerAddr))
    (connect : PeerAddr → Except Unit Peer)
    (getPieces : Peer → Except Unit (List Nat))
    (extHandshake : Peer → Except Unit Extension)
    (getInfo : Peer → Extension → Except Unit Info) : CmdEffects :=
  match peersResult with
  | Except.error _ => { exit := ExitStatus.code 1, errPrinted := true }
  | Except.ok [] => { exit := ExitStatus.code 0 }
  | Except.ok (a :: _) =>
    match connect a with
    | Except.error _ =>
        { exit := ExitStatus.code 1, errPrinted := true, handshakes := 1 }
    | Except.ok peer =>
      match getPieces peer with
      | Except.error _ =>
          { exit := ExitStatus.code 1, errPrinted := true, handshakes := 1 }
      | Except.ok _ =>
        match extHandshake peer with
        | Except.error _ =>
            { exit := ExitStatus.code 1, errPrinted := true, handshakes := 1 }
        | Except.ok ext =>
          match getInfo peer ext with
          | Except.error _ =>
              { exit := ExitStatus.code 1, errPrinted := true, handshakes := 1 }
          | Except.ok _ => { exit := ExitStatus.code 0, handshakes := 1 }

/-- Embeds `Commands::MagnetDownloadPiece` (`src/src/main.rs` lines
119–155).  With a non-empty peer list: connect to `peers[0]`,
`get_pieces`, extension handshake, `get_extension_info`, build the
torrent, `send_interest`, compute `piece_len` via `get_piece_len`,
download the piece, reject a wrong length (stderr + `Ok(())`), otherwise
copy into a `piece_len`-sized buffer and write it (the copy is guarded by
the length equality, so the buffer equals `data`).  An empty peer list
skips everything and returns `Ok(())`. -/
def magnetDownloadPieceCmd (magnet_tracker : String) (piece_index : Nat)
    (peersResult : Except Unit (List PeerAddr))
    (connect : PeerAddr → Except Unit Peer)
    (getPieces : Peer → Except Unit (List Nat))
    (extHandshake : Peer → Except Unit Extension)
    (getInfo : Peer → Extension → Except Unit Info)
    (sendInterest : Peer → Except Unit Unit)
    (download : Peer → Nat → Nat → Except Unit (List Byte)) : CmdEffects :=
  match peersResult with
  | Except.error _ => { exit := ExitStatus.code 1, errPrinted := true }
  | Except.ok [] => { exit := ExitStatus.code 0 }
  | Except.ok (a :: _) =>
    match connect a with
    | Except.error _ =>
        { exit := ExitStatus.code 1, errPrinted := true, handshakes := 1 }
    | Except.ok peer =>
      match getPieces peer with
      | Except.error _ =>
          { exit := ExitStatus.code 1, errPrinted := true, handshakes := 1 }
      | Except.ok _ =>
        match extHandshake peer with
        | Except.error _ =>
            { exit := ExitStatus.code 1, errPrinted := true, handshakes := 1 }
        | Except.ok ext =>
          match getInfo peer ext with
          | Except.error _ =>
              { exit := ExitStatus.code 1, errPrinted := true, handshakes := 1 }
          | Except.ok info =>
            let torrent : Torrent := { announce := magnet_tracker, info := info }
            match sendInterest peer with
            | Except.error _ =>
                { exit := ExitStatus.code 1, errPrinted := true, handshakes := 1 }
            | Except.ok _ =>
              let piece_len := torrent.get_piece_len piece_index
              match download peer piece_index piece_len with
              | Except.error _ =>
                  { exit := ExitStatus.code 1, errPrinted := true, handshakes := 1,
                    usedPeer := some peer }
              | Except.ok data =>
                if data.length ≠ piece_len then
                  { exit := ExitStatus.code 0, errPrinted := true, handshakes := 1,
                    usedPeer := some peer }
                else
                  { exit := ExitStatus.code 0, written := some data, handshakes := 1,
                    usedPeer := some peer }

/-- Lower-case hex digit for a value < 16 (semantics of `hex::encode`). -/
def hexDigit (n : Nat) : Char :=
  if n < 10 then Char.ofNat (48 + n) else Char.ofNat (87 + n)

/-- Two-digit lower-case hex rendering of one byte. -/
def hexByte (b : Byte) : String :=
  String.mk [hexDigit (b / 16 % 16), hexDigit (b % 16)]

/-- `hex::encode` over a byte sequence. -/
def hexEncode (bs : List Byte) : String :=
  String.join (bs.map hexByte)

/-- `slice::chunks n`: split a list into consecutive chunks of `n`
elements, the last possibly shorter (as Rust's `pieces.chunks(20)`). -/
def chunksOf (n : Nat) : List Byte → List (List Byte)
  | [] => []
  | a :: l => (a :: l.take (n - 1)) :: chunksOf n (l.drop (n - 1))
termination_by l => l.length
decreasing_by
  simp only [List.length_cons, List.length_drop]
  omega

/-- Embeds `Commands::Info` (`src/src/main.rs` lines 22–34) as the list of
lines printed to stdout: the tracker URL, the length, the info hash in hex
(`torrent_hash` is the result of `Info::get_hash`, a library function not
under `src/`), the piece length, a `Piece Hashes:` header, then one line
of hex per 20-byte chunk of `pieces`, in order. -/
def infoCmd (torrent : Torrent) (torrent_hash : List Byte) : List String :=
  ("Tracker URL: " ++ torrent.announce)
    :: ("Length: " ++ toString torrent.info.length)
    :: ("Info Hash: " ++ hexEncode torrent_hash)
    :: ("Piece Length: " ++ toString torrent.info.piece_length)
    :: "Piece Hashes:"
    :: (chunksOf 20 torrent.info.pieces).map hexEncode

/-- Total length of a list of piece buffers. -/
def sumLen (ps : List (List Byte)) : Nat :=
  (ps.map List.length).sum

/-! ## Concrete fixtures for witnesses and counterexamples

A tiny but well-formed torrent: `piece_length = 2`, `length = 5`, so
3 pieces of lengths 2, 2, 1; `pieces` holds 3 · 20 digest bytes. -/

/-- A tiny well-formed info dictionary (3 pieces: 2 + 2 + 1 = 5 bytes). -/
def tinyInfo : Info :=
  { name := "tiny", piece_length := 2, pieces := List.replicate 60 1, length := 5 }

/-- The tiny torrent built on `tinyInfo`. -/
def tinyTorrent : Torrent :=
  { announce := "http://tracker.example/announce", info := tinyInfo }

/-- A peer whose bitfield has all three pieces set. -/
def peerAll : Peer :=
  { address := 0, peerId := 100, bitfield := [true, true, true] }

/-- A peer whose bitfield has no piece set. -/
def peerNone : Peer :=
  { address := 1, peerId := 101, bitfield := [false, false, false] }

/-- A download environment that returns a block of the requested length. -/
def dlExact : Peer → Nat → Nat → Except Unit (List Byte) :=
  fun _ _ len => Except.ok (List.replicate len 7)

/-- A download environment that always returns an empty buffer. -/
def dlEmpty : Peer → Nat → Nat → Except Unit (List Byte) :=
  fun _ _ _ => Except.ok []

/-- A download environment that always fails. -/
def dlFail : Peer → Nat → Nat → Except Unit (List Byte) :=
  fun _ _ _ => Except.error ()

/-- A session for `peerAll` reporting pieces and an extension id. -/
def sessAll : SessionResult :=
  { peer := peerAll, pieces := [0, 1, 2], ext := { utMetadata := 16 } }

/-- A connect environment where only address 0 succeeds (with `sessAll`). -/
def connectOnly0 : PeerAddr → Except Unit SessionResult :=
  fun a => if a = 0 then Except.ok sessAll else Except.error ()

/-- A connect environment that always succeeds with `sessAll`. -/
def connectOk : PeerAddr → Except Unit SessionResult :=
  fun _ => Except.ok sessAll

/-- A metainfo fetch that returns `tinyInfo`. -/
def giTiny : Peer → Extension → Except Unit Info :=
  fun _ _ => Except.ok tinyInfo

/-- A full-download environment returning the three tiny piece buffers. -/
def dlTorrentTiny : Torrent → List Peer → Except Unit (List (List Byte)) :=
  fun _ _ => Except.ok [[1, 2], [3, 4], [5]]

/-- A connect environment for the single-peer magnet commands. -/
def connectPeer : PeerAddr → Except Unit Peer :=
  fun _ => Except.ok peerAll

/-- A `get_pieces` environment reporting three pieces. -/
def gpOk : Peer → Except Unit (List Nat) :=
  fun _ => Except.ok [0, 1, 2]

/-- An extension-handshake environment returning id 16. -/
def ehOk : Peer → Except Unit Extension :=
  fun _ => Except.ok { utMetadata := 16 }

/-- A `send_interest` environment that succeeds. -/
def siOk : Peer → Except Unit Unit :=
  fun _ => Except.ok ()

/-! ## Claim theorems -/

/-- C8: the `download_piece` subcommand indexes position 1 of the
available-peer list without a length check, so whenever
`get_available_peers` yields fewer than two peers the command panics
(out-of-bounds slice index) instead of returning an error. -/
theorem c8_downloadPiece_panics_on_short_peer_list
    (torrent : Torrent) (piece_index : Nat) (available_peers : List Peer)
    (download : Peer → Nat → Nat → Except Unit (List Byte))
    (h : available_peers.length < 2) :
    (downloadPieceCmd torrent piece_index (Except.ok available_peers) download).exit
      = ExitStatus.panicked := by
  have h1 : available_peers[1]? = none := by
    apply List.getElem?_eq_none
    omega
  simp [downloadPieceCmd, h1]

/-- Witness for C8 at a concrete input: a single available peer makes
`download_piece` panic. -/
theorem c8_downloadPiece_panics_on_short_peer_list_witness :
    ([peerAll] : List Peer).length < 2 ∧
      (downloadPieceCmd tinyTorrent 0 (Except.ok [peerAll]) dlExact).exit
        = ExitStatus.panicked :=
  ⟨by decide,
    c8_downloadPiece_panics_on_short_peer_list tinyTorrent 0 [peerAll] dlExact
      (by decide)⟩

/-- C10: every magnet subcommand (`magnet_handshake`, `magnet_info`,
`magnet_download_piece`, `magnet_download`), given an empty peer list from
the tracker, performs no handshake, writes no output file, prints no
error, and exits with code 0: the `peers[0]` access is guarded by a
non-emptiness check and the command silently completes. -/
theorem c10_magnet_empty_peers_silent_success :
    (∀ connect getPieces extHandshake,
        magnetHandshakeCmd (Except.ok []) connect getPieces extHandshake
          = { exit := ExitStatus.code 0 })
    ∧ (∀ connect getPieces extHandshake getInfo,
        magnetInfoCmd (Except.ok []) connect getPieces extHandshake getInfo
          = { exit := ExitStatus.code 0 })
    ∧ (∀ tracker p connect getPieces extHandshake getInfo sendInterest download,
        magnetDownloadPieceCmd tracker p (Except.ok []) connect getPieces
            extHandshake getInfo sendInterest download
          = { exit := ExitStatus.code 0 })
    ∧ (∀ tracker connect getInfo download_torrent,
        magnetDownloadCmd tracker (Except.ok []) connect getInfo download_torrent
          = { exit := ExitStatus.code 0 }) :=
  ⟨fun _ _ _ => rfl, fun _ _ _ _ => rfl, fun _ _ _ _ _ _ _ _ => rfl,
    fun _ _ _ _ => rfl⟩

/-- C1 counterexample: with available peers `[peerAll, peerNone]` and
valid piece index 0, the peer actually used is `peerNone`, whose bitfield
does not have the piece, while `peerAll` (which has every piece) is
skipped; and with the single available peer `peerAll` holding the piece,
the command panics instead of using it.  So the peer used is not "some
ready peer whose bitfield has the piece set": the command always uses the
fixed peer-list position 1. -/
theorem c1_downloadPiece_peer_choice_cex :
    (downloadPieceCmd tinyTorrent 0 (Except.ok [peerAll, peerNone]) dlExact).usedPeer
        = some peerNone
    ∧ peerNone.bitfield.getD 0 false = false
    ∧ peerAll.bitfield.getD 0 false = true
    ∧ 0 < tinyTorrent.pieceCount
    ∧ (downloadPieceCmd tinyTorrent 0 (Except.ok [peerAll]) dlExact).exit
        = ExitStatus.panicked := by decide

/-- C1 (amended): the `download_piece` subcommand always uses the peer at
fixed position 1 of the available-peer list whenever that position exists,
regardless of that peer's bitfield (and panics when it does not exist). -/
theorem c1_amended_downloadPiece_uses_fixed_index_one
    (torrent : Torrent) (piece_index : Nat) (available_peers : List Peer)
    (download : Peer → Nat → Nat → Except Unit (List Byte))
    (h1 : 1 < available_peers.length) :
    (downloadPieceCmd torrent piece_index (Except.ok available_peers) download).usedPeer
      = some (available_peers.get ⟨1, h1⟩) := by
  have hsome : available_peers[1]? = some (available_peers.get ⟨1, h1⟩) := by
    rw [List.getElem?_eq_getElem h1]
    simp
  simp only [downloadPieceCmd, hsome]
  split
  · rfl
  · split
    · rfl
    · rfl

/-- Witness for the amended C1 at a concrete input. -/
theorem c1_amended_witness :
    1 < ([peerAll, peerNone] : List Peer).length ∧
      (downloadPieceCmd tinyTorrent 0 (Except.ok [peerAll, peerNone]) dlExact).usedPeer
        = some (([peerAll, peerNone] : List Peer).get ⟨1, by decide⟩) :=
  ⟨by decide,
    c1_amended_downloadPiece_uses_fixed_index_one tinyTorrent 0 [peerAll, peerNone]
      dlExact (by decide)⟩

/-- C2 counterexample: an invalid downloaded length yields exit code 0.
With `download_piece` receiving a zero-length buffer for a 2-byte piece,
the command prints an error to stderr yet exits 0; likewise `download`
exits 0 when `download_torrent` fails. -/
theorem c2_exit_code_zero_on_error_cex :
    (downloadPieceCmd tinyTorrent 0 (Except.ok [peerAll, peerNone]) dlEmpty).errPrinted
        = true
    ∧ (downloadPieceCmd tinyTorrent 0 (Except.ok [peerAll, peerNone]) dlEmpty).exit
        = ExitStatus.code 0
    ∧ (downloadCmd tinyTorrent (Except.ok [peerAll])
          (fun _ => Except.error ())).errPrinted = true
    ∧ (downloadCmd tinyTorrent (Except.ok [peerAll])
          (fun _ => Except.error ())).exit = ExitStatus.code 0 := by decide

/-- C2 (amended): errors propagated with `?` (e.g. a failing
`download_piece` call, in `download_piece` as well as in
`magnet_download_piece`) exit with code 1 and print the error; but an
invalid downloaded piece length (`download_piece`,
`magnet_download_piece`), a failing `download_torrent`, and a
wrong-length full download (`download`, `magnet_download`) all print the
error to stderr and still exit with code 0. -/
theorem c2_amended_exit_codes :
    (∀ (t : Torrent) (p : Nat) (peers : List Peer)
        (dl : Peer → Nat → Nat → Except Unit (List Byte)) (q : Peer),
        peers[1]? = some q → dl q p (t.get_piece_len p) = Except.error () →
        (downloadPieceCmd t p (Except.ok peers) dl).exit = ExitStatus.code 1
          ∧ (downloadPieceCmd t p (Except.ok peers) dl).errPrinted = true)
    ∧ (∀ (t : Torrent) (p : Nat) (peers : List Peer)
        (dl : Peer → Nat → Nat → Except Unit (List Byte)) (q : Peer)
        (data : List Byte),
        peers[1]? = some q → dl q p (t.get_piece_len p) = Except.ok data →
        data.length ≠ t.get_piece_len p →
        (downloadPieceCmd t p (Except.ok peers) dl).exit = ExitStatus.code 0
          ∧ (downloadPieceCmd t p (Except.ok peers) dl).errPrinted = true)
    ∧ (∀ (t : Torrent) (peers : List Peer)
        (dt : List Peer → Except Unit (List (List Byte))),
        dt peers = Except.error () →
        (downloadCmd t (Except.ok peers) dt).exit = ExitStatus.code 0
          ∧ (downloadCmd t (Except.ok peers) dt).errPrinted = true)
    ∧ (∀ (t : Torrent) (peers : List Peer)
        (dt : List Peer → Except Unit (List (List Byte)))
        (pieces : List (List Byte)),
        dt peers = Except.ok pieces → pieces.flatten.length ≠ t.info.length →
        (downloadCmd t (Except.ok peers) dt).exit = ExitStatus.code 0
          ∧ (downloadCmd t (Except.ok peers) dt).errPrinted = true)
    ∧ (∀ (tracker : String) (p : Nat) (addr : PeerAddr) (rest : List PeerAddr)
        (connect : PeerAddr → Except Unit Peer)
        (getPieces : Peer → Except Unit (List Nat))
        (extHandshake : Peer → Except Unit Extension)
        (getInfo : Peer → Extension → Except Unit Info)
        (sendInterest : Peer → Except Unit Unit)
        (download : Peer → Nat → Nat → Except Unit (List Byte))
        (peer : Peer) (ps : List Nat) (ext : Extension) (info : Info)
        (data : List Byte),
        connect addr = Except.ok peer →
        getPieces peer = Except.ok ps →
        extHandshake peer = Except.ok ext →
        getInfo peer ext = Except.ok info →
        sendInterest peer = Except.ok () →
        download peer p
            (({ announce := tracker, info := info } : Torrent).get_piece_len p)
          = Except.ok data →
        data.length ≠ ({ announce := tracker, info := info } : Torrent).get_piece_len p →
        (magnetDownloadPieceCmd tracker p (Except.ok (addr :: rest)) connect
            getPieces extHandshake getInfo sendInterest download).exit
          = ExitStatus.code 0
          ∧ (magnetDownloadPieceCmd tracker p (Except.ok (addr :: rest)) connect
              getPieces extHandshake getInfo sendInterest download).errPrinted = true)
    ∧ (∀ (tracker : String) (p : Nat) (addr : PeerAddr) (rest : List PeerAddr)
        (connect : PeerAddr → Except Unit Peer)
        (getPieces : Peer → Except Unit (List Nat))
        (extHandshake : Peer → Except Unit Extension)
        (getInfo : Peer → Extension → Except Unit Info)
        (sendInterest : Peer → Except Unit Unit)
        (download : Peer → Nat → Nat → Except Unit (List Byte))
        (peer : Peer) (ps : List Nat) (ext : Extension) (info : Info),
        connect addr = Except.ok peer →
        getPieces peer = Except.ok ps →
        extHandshake peer = Except.ok ext →
        getInfo peer ext = Except.ok info →
        sendInterest peer = Except.ok () →
        download peer p
            (({ announce := tracker, info := info } : Torrent).get_piece_len p)
          = Except.error () →
        (magnetDownloadPieceCmd tracker p (Except.ok (addr :: rest)) connect
            getPieces extHandshake getInfo sendInterest download).exit
          = ExitStatus.code 1
          ∧ (magnetDownloadPieceCmd tracker p (Except.ok (addr :: rest)) connect
              getPieces extHandshake getInfo sendInterest download).errPrinted = true)
    ∧ (∀ (tracker : String) (peers : List PeerAddr)
        (connect : PeerAddr → Except Unit SessionResult)
        (gi : Peer → Extension → Except Unit Info)
        (dl : Torrent → List Peer → Except Unit (List (List Byte)))
        (n : Nat) (a : Peer) (rest : List Peer) (ext : Extension) (info : Info),
        magnetPeerLoop connect peers [] none 0
            = (n, Except.ok (a :: rest, some ext)) →
        gi a ext = Except.ok info →
        dl { announce := tracker, info := info } (a :: rest) = Except.error () →
        (magnetDownloadCmd tracker (Except.ok peers) connect gi dl).exit
          = ExitStatus.code 0
          ∧ (magnetDownloadCmd tracker (Except.ok peers) connect gi dl).errPrinted
            = true)
    ∧ (∀ (tracker : String) (peers : List PeerAddr)
        (connect : PeerAddr → Except Unit SessionResult)
        (gi : Peer → Extension → Except Unit Info)
        (dl : Torrent → List Peer → Except Unit (List (List Byte)))
        (n : Nat) (a : Peer) (rest : List Peer) (ext : Extension) (info : Info)
        (pieces : List (List Byte)),
        magnetPeerLoop connect peers [] none 0
            = (n, Except.ok (a :: rest, some ext)) →
        gi a ext = Except.ok info →
        dl { announce := tracker, info := info } (a :: rest) = Except.ok pieces →
        pieces.flatten.length ≠ info.length →
        (magnetDownloadCmd tracker (Except.ok peers) connect gi dl).exit
          = ExitStatus.code 0
          ∧ (magnetDownloadCmd tracker (Except.ok peers) connect gi dl).errPrinted
            = true) := by
  refine ⟨?_, ?_, ?_, ?_, ?_, ?_, ?_, ?_⟩
  · intro t p peers dl q hq hdl
    simp [downloadPieceCmd, hq, hdl]
  · intro t p peers dl q data hq hdl hne
    simp [downloadPieceCmd, hq, hdl, hne]
  · intro t peers dt hdt
    simp [downloadCmd, hdt]
  · intro t peers dt pieces hdt hne
    rw [List.length_flatten] at hne
    simp [downloadCmd, hdt, hne]
  · intro tracker p addr rest connect getPieces extHandshake getInfo sendInterest
      download peer ps ext info data hconn hgp heh hgi hsi hdl hne
    constructor <;>
      simp [magnetDownloadPieceCmd, hconn, hgp, heh, hgi, hsi, hdl, hne]
  · intro tracker p addr rest connect getPieces extHandshake getInfo sendInterest
      download peer ps ext info hconn hgp heh hgi hsi hdl
    constructor <;>
      simp [magnetDownloadPieceCmd, hconn, hgp, heh, hgi, hsi, hdl]
  · intro tracker peers connect gi dl n a rest ext info hl hgi hdl
    constructor <;> simp [magnetDownloadCmd, hl, hgi, hdl]
  · intro tracker peers connect gi dl n a rest ext info pieces hl hgi hdl hne
    rw [List.length_flatten] at hne
    constructor <;> simp [magnetDownloadCmd, hl, hgi, hdl, hne]

/-- Witness for the amended C2 at concrete inputs: each of the eight error
paths evaluated on the tiny torrent, for both the file-based and the
magnet commands. -/
theorem c2_amended_witness :
    ((downloadPieceCmd tinyTorrent 0 (Except.ok [peerAll, peerNone]) dlFail).exit
        = ExitStatus.code 1
      ∧ (downloadPieceCmd tinyTorrent 0 (Except.ok [peerAll, peerNone]) dlFail).errPrinted
        = true)
    ∧ ((downloadPieceCmd tinyTorrent 0 (Except.ok [peerAll, peerNone]) dlEmpty).exit
        = ExitStatus.code 0
      ∧ (downloadPieceCmd tinyTorrent 0 (Except.ok [peerAll, peerNone]) dlEmpty).errPrinted
        = true)
    ∧ ((downloadCmd tinyTorrent (Except.ok [peerAll])
          (fun _ => Except.error ())).exit = ExitStatus.code 0
      ∧ (downloadCmd tinyTorrent (Except.ok [peerAll])
          (fun _ => Except.error ())).errPrinted = true)
    ∧ ((downloadCmd tinyTorrent (Except.ok [peerAll])
          (fun _ => Except.ok [[1]])).exit = ExitStatus.code 0
      ∧ (downloadCmd tinyTorrent (Except.ok [peerAll])
          (fun _ => Except.ok [[1]])).errPrinted = true)
    ∧ ((magnetDownloadPieceCmd "tr" 0 (Except.ok [0]) connectPeer gpOk ehOk giTiny
          siOk dlEmpty).exit = ExitStatus.code 0
      ∧ (magnetDownloadPieceCmd "tr" 0 (Except.ok [0]) connectPeer gpOk ehOk giTiny
          siOk dlEmpty).errPrinted = true)
    ∧ ((magnetDownloadPieceCmd "tr" 0 (Except.ok [0]) connectPeer gpOk ehOk giTiny
          siOk dlFail).exit = ExitStatus.code 1
      ∧ (magnetDownloadPieceCmd "tr" 0 (Except.ok [0]) connectPeer gpOk ehOk giTiny
          siOk dlFail).errPrinted = true)
    ∧ ((magnetDownloadCmd "tr" (Except.ok [0]) connectOk giTiny
          (fun _ _ => Except.error ())).exit = ExitStatus.code 0
      ∧ (magnetDownloadCmd "tr" (Except.ok [0]) connectOk giTiny
          (fun _ _ => Except.error ())).errPrinted = true)
    ∧ ((magnetDownloadCmd "tr" (Except.ok [0]) connectOk giTiny
          (fun _ _ => Except.ok [[1]])).exit = ExitStatus.code 0
      ∧ (magnetDownloadCmd "tr" (Except.ok [0]) connectOk giTiny
          (fun _ _ => Except.ok [[1]])).errPrinted = true) :=
  ⟨c2_amended_exit_codes.1 tinyTorrent 0 [peerAll, peerNone] dlFail peerNone
      (by decide) rfl,
    c2_amended_exit_codes.2.1 tinyTorrent 0 [peerAll, peerNone] dlEmpty peerNone []
      (by decide) rfl (by decide),
    c2_amended_exit_codes.2.2.1 tinyTorrent [peerAll] (fun _ => Except.error ()) rfl,
    c2_amended_exit_codes.2.2.2.1 tinyTorrent [peerAll] (fun _ => Except.ok [[1]])
      [[1]] rfl (by decide),
    c2_amended_exit_codes.2.2.2.2.1 "tr" 0 0 [] connectPeer gpOk ehOk giTiny siOk
      dlEmpty peerAll [0, 1, 2] { utMetadata := 16 } tinyInfo []
      rfl rfl rfl rfl rfl rfl (by decide),
    c2_amended_exit_codes.2.2.2.2.2.1 "tr" 0 0 [] connectPeer gpOk ehOk giTiny siOk
      dlFail peerAll [0, 1, 2] { utMetadata := 16 } tinyInfo
      rfl rfl rfl rfl rfl rfl,
    c2_amended_exit_codes.2.2.2.2.2.2.1 "tr" [0] connectOk giTiny
      (fun _ _ => Except.error ()) 1 peerAll [] { utMetadata := 16 } tinyInfo
      rfl rfl rfl,
    c2_amended_exit_codes.2.2.2.2.2.2.2 "tr" [0] connectOk giTiny
      (fun _ _ => Except.ok [[1]]) 1 peerAll [] { utMetadata := 16 } tinyInfo [[1]]
      rfl rfl rfl (by decide)⟩

/-- If `connect` fails on some address in the list, the magnet peer loop
propagates the error (the `?` inside the `for` loop). -/
lemma magnetPeerLoop_error_of_mem (connect : PeerAddr → Except Unit SessionResult) :
    ∀ (peers : List PeerAddr) (avail : List Peer) (ext : Option Extension) (n : Nat),
      (∃ a ∈ peers, connect a = Except.error ()) →
      ∃ m, magnetPeerLoop connect peers avail ext n = (m, Except.error ()) := by
  intro peers
  induction peers with
  | nil =>
    intro avail ext n h
    rcases h with ⟨a, ha, _⟩
    cases ha
  | cons b rest ih =>
    intro avail ext n h
    rcases h with ⟨a, ha, herr⟩
    rcases hc : connect b with e | s
    · exact ⟨n + 1, by simp [magnetPeerLoop, hc]⟩
    · have hmem : a ∈ rest := by
        rcases List.mem_cons.mp ha with h1 | h1
        · subst h1
          rw [herr] at hc
          cases hc
        · exact h1
      obtain ⟨m, hm⟩ := ih
          (if s.pieces.length > 0 then avail ++ [s.peer] else avail)
          (if ext.isNone then some s.ext else ext) (n + 1) ⟨a, hmem, herr⟩
      refine ⟨m, ?_⟩
      rw [magnetPeerLoop, hc]
      exact hm

/-- The magnet peer loop's invariant: once `available_peers` is non-empty,
`extension` has been set to `Some` (it is set on every successful
iteration before the peer can be pushed). -/
lemma magnetPeerLoop_ext_invariant (connect : PeerAddr → Except Unit SessionResult) :
    ∀ (peers : List PeerAddr) (avail0 : List Peer) (ext0 : Option Extension)
      (n0 n : Nat) (avail : List Peer) (extOpt : Option Extension),
      magnetPeerLoop connect peers avail0 ext0 n0 = (n, Except.ok (avail, extOpt)) →
      (avail0 ≠ [] → ext0.isSome = true) →
      (avail ≠ [] → extOpt.isSome = true) := by
  intro peers
  induction peers with
  | nil =>
    intro avail0 ext0 n0 n avail extOpt h hinv
    rw [magnetPeerLoop] at h
    cases h
    exact hinv
  | cons b rest ih =>
    intro avail0 ext0 n0 n avail extOpt h hinv
    rw [magnetPeerLoop] at h
    rcases hc : connect b with e | s
    · rw [hc] at h
      cases h
    · rw [hc] at h
      refine ih _ _ _ _ _ _ h ?_
      intro _
      cases ext0 with
      | none => simp
      | some x => simp

/-- C3 counterexample: with two tracker addresses where address 0 yields a
live session holding pieces and address 1 fails to connect, the
`magnet_download` command aborts with exit code 1 (the error propagates
out of the peer loop) — even though running the same command with only the
live peer completes the download and writes the file. -/
theorem c3_magnet_peer_error_aborts_cex :
    (magnetDownloadCmd "tr" (Except.ok [0, 1]) connectOnly0 giTiny dlTorrentTiny).exit
        = ExitStatus.code 1
    ∧ connectOnly0 0 = Except.ok sessAll
    ∧ sessAll.pieces.length > 0
    ∧ (magnetDownloadCmd "tr" (Except.ok [0]) connectOnly0 giTiny dlTorrentTiny).written
        = some [1, 2, 3, 4, 5] :=
  ⟨by decide, rfl, by decide, by decide⟩

/-- C3 (amended): in `magnet_download`, a peer-session error during the
peer-pool construction loop (connect, handshake, `get_pieces`, or
extension handshake failing for any listed peer) aborts the whole command
with exit code 1 and no output file, rather than merely removing that
peer from the pool; only failures inside `download_torrent` are tolerated
per peer. -/
theorem c3_amended_magnet_peer_error_aborts
    (tracker : String) (peers : List PeerAddr)
    (connect : PeerAddr → Except Unit SessionResult)
    (getInfo : Peer → Extension → Except Unit Info)
    (download_torrent : Torrent → List Peer → Except Unit (List (List Byte)))
    (h : ∃ a ∈ peers, connect a = Except.error ()) :
    (magnetDownloadCmd tracker (Except.ok peers) connect getInfo
        download_torrent).exit = ExitStatus.code 1
    ∧ (magnetDownloadCmd tracker (Except.ok peers) connect getInfo
        download_torrent).written = none := by
  obtain ⟨m, hm⟩ := magnetPeerLoop_error_of_mem connect peers [] none 0 h
  constructor <;> simp [magnetDownloadCmd, hm]

/-- Witness for the amended C3 at a concrete input: address 1 fails to
connect, so the whole magnet download aborts. -/
theorem c3_amended_witness :
    connectOnly0 1 = Except.error ()
    ∧ (magnetDownloadCmd "tr" (Except.ok [0, 1]) connectOnly0 giTiny
        dlTorrentTiny).exit = ExitStatus.code 1
    ∧ (magnetDownloadCmd "tr" (Except.ok [0, 1]) connectOnly0 giTiny
        dlTorrentTiny).written = none :=
  ⟨rfl,
    (c3_amended_magnet_peer_error_aborts "tr" [0, 1] connectOnly0 giTiny dlTorrentTiny
        ⟨1, by decide, rfl⟩).1,
    (c3_amended_magnet_peer_error_aborts "tr" [0, 1] connectOnly0 giTiny dlTorrentTiny
        ⟨1, by decide, rfl⟩).2⟩

/-- C9: the `extension.unwrap()` in `magnet_download` cannot panic.
Whenever the peer loop ends with a non-empty `available_peers` list, the
extension option is `Some` (it is set on the first successful iteration,
and a peer is pushed only by a successful iteration); consequently every
`magnet_download` run exits with a normal exit code, never a panic. -/
theorem c9_magnet_extension_unwrap_safe :
    (∀ (connect : PeerAddr → Except Unit SessionResult) (peers : List PeerAddr)
        (n : Nat) (avail : List Peer) (extOpt : Option Extension),
        magnetPeerLoop connect peers [] none 0 = (n, Except.ok (avail, extOpt)) →
        avail ≠ [] → extOpt.isSome = true)
    ∧ (∀ (tracker : String) (peersResult : Except Unit (List PeerAddr))
        (connect : PeerAddr → Except Unit SessionResult)
        (getInfo : Peer → Extension → Except Unit Info)
        (download_torrent : Torrent → List Peer → Except Unit (List (List Byte))),
        ∃ k, (magnetDownloadCmd tracker peersResult connect getInfo
            download_torrent).exit = ExitStatus.code k) := by
  have hbase : ∀ (connect : PeerAddr → Except Unit SessionResult)
      (peers : List PeerAddr) (n : Nat) (avail : List Peer)
      (extOpt : Option Extension),
      magnetPeerLoop connect peers [] none 0 = (n, Except.ok (avail, extOpt)) →
      avail ≠ [] → extOpt.isSome = true := by
    intro connect peers n avail extOpt h hne
    exact magnetPeerLoop_ext_invariant connect peers [] none 0 n avail extOpt h
      (fun hser => absurd rfl hser) hne
  refine ⟨hbase, ?_⟩
  intro tracker peersResult connect getInfo download_torrent
  cases peersResult with
  | error e => exact ⟨1, rfl⟩
  | ok peers =>
    rcases hl : magnetPeerLoop connect peers [] none 0 with ⟨n, res⟩
    cases res with
    | error e => exact ⟨1, by simp [magnetDownloadCmd, hl]⟩
    | ok pr =>
      rcases pr with ⟨avail, extOpt⟩
      cases avail with
      | nil => exact ⟨0, by simp [magnetDownloadCmd, hl]⟩
      | cons a as =>
        have hsome : extOpt.isSome = true :=
          hbase connect peers n (a :: as) extOpt hl (by simp)
        obtain ⟨ext, hext⟩ := Option.isSome_iff_exists.mp hsome
        subst hext
        cases hgi : getInfo a ext with
        | error e => exact ⟨1, by simp [magnetDownloadCmd, hl, hgi]⟩
        | ok info =>
          cases hdl : download_torrent { announce := tracker, info := info }
              (a :: as) with
          | error e => exact ⟨0, by simp [magnetDownloadCmd, hl, hgi, hdl]⟩
          | ok pieces =>
            by_cases hlen : (pieces.map List.length).sum = info.length
            · exact ⟨0, by simp [magnetDownloadCmd, hl, hgi, hdl, hlen]⟩
            · exact ⟨0, by simp [magnetDownloadCmd, hl, hgi, hdl, hlen]⟩

/-- Witness for C9 at a concrete input: a one-peer loop ends with a
non-empty pool and a `Some` extension. -/
theorem c9_witness :
    magnetPeerLoop connectOk [0] [] none 0
        = (1, Except.ok ([peerAll], some { utMetadata := 16 }))
    ∧ (some ({ utMetadata := 16 } : Extension)).isSome = true :=
  ⟨rfl,
    c9_magnet_extension_unwrap_safe.1 connectOk [0] 1 [peerAll]
      (some { utMetadata := 16 }) rfl (by decide)⟩

/-- `get_piece_len`, characterised the way the spec states it: every piece
before the last has length `piece_length`, the last has length
`total_length - p·piece_length`. -/
lemma get_piece_len_spec (t : Torrent) (p : Nat) :
    (p + 1 < t.pieceCount → t.get_piece_len p = t.info.piece_length)
    ∧ (p + 1 = t.pieceCount →
        t.get_piece_len p = t.info.length - p * t.info.piece_length) := by
  constructor
  · intro h
    simp [Torrent.get_piece_len, h]
  · intro h
    rw [Torrent.get_piece_len, if_neg (by omega)]
    have hp : t.pieceCount - 1 = p := by omega
    rw [hp]

/-- C5: whenever `download_piece` or `magnet_download_piece` writes its
output file, the number of bytes written equals the length of piece `p`:
`piece_length` for every `p` with `p + 1 < piece_count`, and
`total_length - p·piece_length` for the final piece `p + 1 = piece_count`. -/
theorem c5_piece_output_length :
    (∀ (t : Torrent) (p : Nat) (peersResult : Except Unit (List Peer))
        (dl : Peer → Nat → Nat → Except Unit (List Byte)) (d : List Byte),
        (downloadPieceCmd t p peersResult dl).written = some d →
        (p + 1 < t.pieceCount → d.length = t.info.piece_length)
        ∧ (p + 1 = t.pieceCount →
            d.length = t.info.length - p * t.info.piece_length))
    ∧ (∀ (tracker : String) (p : Nat) (addr : PeerAddr) (rest : List PeerAddr)
        (connect : PeerAddr → Except Unit Peer)
        (getPieces : Peer → Except Unit (List Nat))
        (extHandshake : Peer → Except Unit Extension)
        (getInfo : Peer → Extension → Except Unit Info)
        (sendInterest : Peer → Except Unit Unit)
        (download : Peer → Nat → Nat → Except Unit (List Byte))
        (peer : Peer) (ps : List Nat) (ext : Extension) (info : Info)
        (d : List Byte),
        connect addr = Except.ok peer →
        getPieces peer = Except.ok ps →
        extHandshake peer = Except.ok ext →
        getInfo peer ext = Except.ok info →
        (magnetDownloadPieceCmd tracker p (Except.ok (addr :: rest)) connect
            getPieces extHandshake getInfo sendInterest download).written = some d →
        (p + 1 < ({ announce := tracker, info := info } : Torrent).pieceCount →
            d.length = info.piece_length)
        ∧ (p + 1 = ({ announce := tracker, info := info } : Torrent).pieceCount →
            d.length = info.length - p * info.piece_length)) := by
  constructor
  · intro t p peersResult dl d hw
    have hlen : d.length = t.get_piece_len p := by
      cases peersResult with
      | error e => simp [downloadPieceCmd] at hw
      | ok peers =>
        cases hq : peers[1]? with
        | none => simp [downloadPieceCmd, hq] at hw
        | some q =>
          cases hdl : dl q p (t.get_piece_len p) with
          | error e => simp [downloadPieceCmd, hq, hdl] at hw
          | ok data =>
            by_cases hne : data.length = t.get_piece_len p
            · simp [downloadPieceCmd, hq, hdl, hne] at hw
              rw [← hw, hne]
            · simp [downloadPieceCmd, hq, hdl, hne] at hw
    constructor
    · intro h
      rw [hlen, (get_piece_len_spec t p).1 h]
    · intro h
      rw [hlen, (get_piece_len_spec t p).2 h]
  · intro tracker p addr rest connect getPieces extHandshake getInfo sendInterest
      download peer ps ext info d hconn hgp heh hgi hw
    set t : Torrent := { announce := tracker, info := info } with ht
    have hlen : d.length = t.get_piece_len p := by
      cases hsi : sendInterest peer with
      | error e =>
        simp [magnetDownloadPieceCmd, hconn, hgp, heh, hgi, hsi] at hw
      | ok u =>
        cases hdl : download peer p (t.get_piece_len p) with
        | error e =>
          simp [magnetDownloadPieceCmd, hconn, hgp, heh, hgi, hsi, hdl] at hw
        | ok data =>
          by_cases hne : data.length = t.get_piece_len p
          · simp [magnetDownloadPieceCmd, hconn, hgp, heh, hgi, hsi, hdl, hne] at hw
            rw [← hw, hne]
          · simp [magnetDownloadPieceCmd, hconn, hgp, heh, hgi, hsi, hdl, hne] at hw
    constructor
    · intro h
      rw [hlen, (get_piece_len_spec t p).1 h]
    · intro h
      rw [hlen, (get_piece_len_spec t p).2 h]

/-- Witness for C5 at concrete inputs: piece 0 of the tiny torrent (a
middle piece, 2 bytes) via `download_piece`, and the final piece 2
(1 byte) via `magnet_download_piece`. -/
theorem c5_witness :
    ((downloadPieceCmd tinyTorrent 0 (Except.ok [peerAll, peerNone]) dlExact).written
        = some (List.replicate 2 7)
      ∧ (List.replicate 2 7 : List Byte).length = tinyTorrent.info.piece_length)
    ∧ ((magnetDownloadPieceCmd "tr" 2 (Except.ok [0]) connectPeer gpOk ehOk giTiny
          siOk dlExact).written = some (List.replicate 1 7)
      ∧ (List.replicate 1 7 : List Byte).length
          = tinyInfo.length - 2 * tinyInfo.piece_length) :=
  ⟨⟨rfl,
      (c5_piece_output_length.1 tinyTorrent 0 (Except.ok [peerAll, peerNone]) dlExact
          (List.replicate 2 7) rfl).1 (by decide)⟩,
    ⟨rfl,
      (c5_piece_output_length.2 "tr" 2 0 [] connectPeer gpOk ehOk giTiny siOk dlExact
          peerAll [0, 1, 2] { utMetadata := 16 } tinyInfo (List.replicate 1 7)
          rfl rfl rfl rfl rfl).2 (by decide)⟩⟩

/-- C4: whenever `download` or `magnet_download` writes the output file,
the number of bytes written equals the torrent's total length
(`torrent.info.length`); data of any other length is rejected before the
write. -/
theorem c4_full_download_writes_total_length :
    (∀ (t : Torrent) (peersResult : Except Unit (List Peer))
        (dt : List Peer → Except Unit (List (List Byte))) (d : List Byte),
        (downloadCmd t peersResult dt).written = some d →
        d.length = t.info.length)
    ∧ (∀ (tracker : String) (peers : List PeerAddr)
        (connect : PeerAddr → Except Unit SessionResult)
        (gi : Peer → Extension → Except Unit Info)
        (dl : Torrent → List Peer → Except Unit (List (List Byte)))
        (n : Nat) (a : Peer) (rest : List Peer) (ext : Extension)
        (info : Info) (d : List Byte),
        magnetPeerLoop connect peers [] none 0
            = (n, Except.ok (a :: rest, some ext)) →
        gi a ext = Except.ok info →
        (magnetDownloadCmd tracker (Except.ok peers) connect gi dl).written
            = some d →
        d.length = info.length) := by
  constructor
  · intro t peersResult dt d hw
    cases peersResult with
    | error e => simp [downloadCmd] at hw
    | ok peers =>
      cases hdt : dt peers with
      | error e => simp [downloadCmd, hdt] at hw
      | ok pieces =>
        by_cases hlen : (pieces.map List.length).sum = t.info.length
        · simp [downloadCmd, hdt, hlen] at hw
          rw [← hw, List.length_flatten, hlen]
        · simp [downloadCmd, hdt, hlen] at hw
  · intro tracker peers connect gi dl n a rest ext info d hl hgi hw
    cases hdl : dl { announce := tracker, info := info } (a :: rest) with
    | error e => simp [magnetDownloadCmd, hl, hgi, hdl] at hw
    | ok pieces =>
      by_cases hlen : (pieces.map List.length).sum = info.length
      · simp [magnetDownloadCmd, hl, hgi, hdl, hlen] at hw
        rw [← hw, List.length_flatten, hlen]
      · simp [magnetDownloadCmd, hl, hgi, hdl, hlen] at hw

/-- Witness for C4 at concrete inputs: both full-download commands write
exactly 5 = `tinyInfo.length` bytes on the tiny torrent. -/
theorem c4_witness :
    ((downloadCmd tinyTorrent (Except.ok [peerAll])
          (fun _ => Except.ok [[1, 2], [3, 4], [5]])).written
        = some [1, 2, 3, 4, 5]
      ∧ ([1, 2, 3, 4, 5] : List Byte).length = tinyTorrent.info.length)
    ∧ (magnetPeerLoop connectOk [0] [] none 0
          = (1, Except.ok ([peerAll], some { utMetadata := 16 }))
      ∧ (magnetDownloadCmd "tr" (Except.ok [0]) connectOk giTiny
            dlTorrentTiny).written = some [1, 2, 3, 4, 5]
      ∧ ([1, 2, 3, 4, 5] : List Byte).length = tinyInfo.length) :=
  ⟨⟨rfl,
      c4_full_download_writes_total_length.1 tinyTorrent (Except.ok [peerAll])
        (fun _ => Except.ok [[1, 2], [3, 4], [5]]) [1, 2, 3, 4, 5] rfl⟩,
    ⟨rfl, rfl,
      c4_full_download_writes_total_length.2 "tr" [0] connectOk giTiny dlTorrentTiny
        1 peerAll [] { utMetadata := 16 } tinyInfo [1, 2, 3, 4, 5] rfl rfl rfl⟩⟩

/-- Each buffer of a flattened list of buffers appears intact at the
offset given by the total length of the buffers before it. -/
lemma flatten_extract :
    ∀ (ps : List (List Byte)) (i : Nat) (hi : i < ps.length),
      ((ps.flatten).drop (sumLen (ps.take i))).take (ps.get ⟨i, hi⟩).length
        = ps.get ⟨i, hi⟩ := by
  intro ps
  induction ps with
  | nil =>
    intro i hi
    cases hi
  | cons p ps ih =>
    intro i hi
    cases i with
    | zero =>
      simp only [List.take_zero, sumLen, List.map_nil, List.sum_nil, List.drop_zero,
        List.flatten_cons, List.get_eq_getElem, List.getElem_cons_zero]
      exact List.take_left p ps.flatten
    | succ j =>
      have hj : j < ps.length := by simpa using hi
      have hsum : sumLen ((p :: ps).take (j + 1))
          = p.length + sumLen (ps.take j) := by
        simp [sumLen, List.take_succ_cons]
      rw [hsum, List.flatten_cons, ← List.drop_drop, List.drop_left]
      simpa using ih j hj

/-- C6: for every completed full download — via `download` as well as
via `magnet_download` — the output byte sequence is the concatenation of
the downloaded piece buffers in ascending piece-index order, with no
bytes inserted or reordered: the output is exactly `pieces.flatten`, its
length is the sum of the buffer lengths, and the `i`-th buffer appears
intact at the offset equal to the total length of buffers `0..i-1`
(`download_torrent` delivering the buffers in ascending index order per
§4.7 of the spec). -/
theorem c6_output_is_ascending_concatenation :
    (∀ (t : Torrent) (peers : List Peer)
        (dt : List Peer → Except Unit (List (List Byte)))
        (pieces : List (List Byte)) (d : List Byte),
        dt peers = Except.ok pieces →
        (downloadCmd t (Except.ok peers) dt).written = some d →
        d = pieces.flatten
        ∧ d.length = sumLen pieces
        ∧ ∀ (i : Nat) (hi : i < pieces.length),
            (d.drop (sumLen (pieces.take i))).take (pieces.get ⟨i, hi⟩).length
              = pieces.get ⟨i, hi⟩)
    ∧ (∀ (tracker : String) (peers : List PeerAddr)
        (connect : PeerAddr → Except Unit SessionResult)
        (gi : Peer → Extension → Except Unit Info)
        (dl : Torrent → List Peer → Except Unit (List (List Byte)))
        (n : Nat) (a : Peer) (rest : List Peer) (ext : Extension)
        (info : Info) (pieces : List (List Byte)) (d : List Byte),
        magnetPeerLoop connect peers [] none 0
            = (n, Except.ok (a :: rest, some ext)) →
        gi a ext = Except.ok info →
        dl { announce := tracker, info := info } (a :: rest) = Except.ok pieces →
        (magnetDownloadCmd tracker (Except.ok peers) connect gi dl).written
            = some d →
        d = pieces.flatten
        ∧ d.length = sumLen pieces
        ∧ ∀ (i : Nat) (hi : i < pieces.length),
            (d.drop (sumLen (pieces.take i))).take (pieces.get ⟨i, hi⟩).length
              = pieces.get ⟨i, hi⟩) := by
  constructor
  · intro t peers dt pieces d hdt hw
    have hd : d = pieces.flatten := by
      by_cases hlen : (pieces.map List.length).sum = t.info.length
      · simp [downloadCmd, hdt, hlen] at hw
        exact hw.symm
      · simp [downloadCmd, hdt, hlen] at hw
    refine ⟨hd, ?_, ?_⟩
    · rw [hd, List.length_flatten]
      rfl
    · intro i hi
      rw [hd]
      exact flatten_extract pieces i hi
  · intro tracker peers connect gi dl n a rest ext info pieces d hl hgi hdl hw
    have hd : d = pieces.flatten := by
      by_cases hlen : (pieces.map List.length).sum = info.length
      · simp [magnetDownloadCmd, hl, hgi, hdl, hlen] at hw
        exact hw.symm
      · simp [magnetDownloadCmd, hl, hgi, hdl, hlen] at hw
    refine ⟨hd, ?_, ?_⟩
    · rw [hd, List.length_flatten]
      rfl
    · intro i hi
      rw [hd]
      exact flatten_extract pieces i hi

/-- Witness for C6 at concrete inputs: both full-download commands write
the in-order concatenation of the three tiny piece buffers. -/
theorem c6_witness :
    ((downloadCmd tinyTorrent (Except.ok [peerAll])
          (fun _ => Except.ok [[1, 2], [3, 4], [5]])).written = some [1, 2, 3, 4, 5]
      ∧ ([1, 2, 3, 4, 5] : List Byte) = List.flatten [[1, 2], [3, 4], [5]])
    ∧ ((magnetDownloadCmd "tr" (Except.ok [0]) connectOk giTiny
          dlTorrentTiny).written = some [1, 2, 3, 4, 5]
      ∧ ([1, 2, 3, 4, 5] : List Byte) = List.flatten [[1, 2], [3, 4], [5]]) :=
  ⟨⟨rfl,
      (c6_output_is_ascending_concatenation.1 tinyTorrent [peerAll]
          (fun _ => Except.ok [[1, 2], [3, 4], [5]]) [[1, 2], [3, 4], [5]]
          [1, 2, 3, 4, 5] rfl rfl).1⟩,
    ⟨rfl,
      (c6_output_is_ascending_concatenation.2 "tr" [0] connectOk giTiny
          dlTorrentTiny 1 peerAll [] { utMetadata := 16 } tinyInfo
          [[1, 2], [3, 4], [5]] [1, 2, 3, 4, 5] rfl rfl rfl rfl).1⟩⟩

/-- `chunksOf n` on a list of length `n·k` yields the `k` consecutive
`n`-element slices, in order. -/
lemma chunksOf_pos_eq (n : Nat) (hn : 0 < n) :
    ∀ (k : Nat) (l : List Byte), l.length = n * k →
      chunksOf n l = (List.range k).map (fun i => (l.drop (n * i)).take n) := by
  intro k
  induction k with
  | zero =>
    intro l hl
    have hnil : l = [] := List.eq_nil_of_length_eq_zero (by simpa using hl)
    subst hnil
    rw [chunksOf]
    simp
  | succ k ih =>
    intro l hl
    obtain ⟨m, rfl⟩ : ∃ m, n = m + 1 := ⟨n - 1, by omega⟩
    cases l with
    | nil =>
      have hpos : 0 < (m + 1) * (k + 1) := Nat.mul_pos (by omega) (by omega)
      simp only [List.length_nil] at hl
      omega
    | cons a l =>
      rw [chunksOf]
      simp only [Nat.add_sub_cancel]
      have hexp : (m + 1) * (k + 1) = (m + 1) * k + m + 1 := by ring
      have hlen : (l.drop m).length = (m + 1) * k := by
        simp only [List.length_drop]
        simp only [List.length_cons] at hl
        omega
      rw [ih (l.drop m) hlen, List.range_succ_eq_map, List.map_cons, List.map_map]
      congr 1
      simp only [List.map_inj_left, Function.comp_apply]
      intro i hi
      rw [List.drop_drop, Nat.succ_eq_add_one]
      have harith : (m + 1) * (i + 1) = (m + (m + 1) * i) + 1 := by ring
      rw [harith, List.drop_succ_cons]

/-- C7: for every parseable torrent, the `info` subcommand prints the
tracker URL, the total length, the info-hash in hex, the piece length, a
`Piece Hashes:` header, and then every 20-byte piece hash in hex, one
per line, in the order the hashes appear in `pieces`: the line for index
`i` is the hex rendering of bytes `20·i .. 20·i+20` of `pieces`. -/
theorem c7_info_prints_fields_and_hashes
    (t : Torrent) (torrent_hash : List Byte) (k : Nat)
    (hk : t.info.pieces.length = 20 * k) :
    infoCmd t torrent_hash
      = ("Tracker URL: " ++ t.announce)
        :: ("Length: " ++ toString t.info.length)
        :: ("Info Hash: " ++ hexEncode torrent_hash)
        :: ("Piece Length: " ++ toString t.info.piece_length)
        :: "Piece Hashes:"
        :: (List.range k).map
            (fun i => hexEncode ((t.info.pieces.drop (20 * i)).take 20)) := by
  unfold infoCmd
  rw [chunksOf_pos_eq 20 (by omega) k t.info.pieces hk, List.map_map]
  rfl

/-- Witness for C7 at a concrete input: the tiny torrent has 3 piece
hashes, printed one per line after the four field lines. -/
theorem c7_witness :
    tinyTorrent.info.pieces.length = 20 * 3
    ∧ infoCmd tinyTorrent [171]
      = ("Tracker URL: " ++ tinyTorrent.announce)
        :: ("Length: " ++ toString tinyTorrent.info.length)
        :: ("Info Hash: " ++ hexEncode [171])
        :: ("Piece Length: " ++ toString tinyTorrent.info.piece_length)
        :: "Piece Hashes:"
        :: (List.range 3).map
            (fun i => hexEncode ((tinyTorrent.info.pieces.drop (20 * i)).take 20)) :=
  ⟨by decide, c7_info_prints_fields_and_hashes tinyTorrent [171] 3 (by decide)⟩

end BitTorrent
